import Mathlib

/-!
Verification development for the `code2test` repository (two near-identical
Python scripts, `code2test.py` and `code2testt.py`).

The development shallowly embeds the three core components of the scripts:

* the structured-data extractor `parse_analysis_response` (a four-strategy
  cascade around `json.loads`),
* the multi-file response parser `parse_generation_response` /
  `parse_validation_response` (a line-by-line state machine keyed by
  `--- File: path ---` boundary markers, with per-buffer fence stripping in
  `process_content`),
* the path-safe materializer `store_test_files` (per-entry path validation
  against a sandbox root, built on `os.path.normpath` / `os.path.isabs` /
  `os.path.join` / `os.path.abspath`).

Text is modelled as `List Char` (Python `str`).  Filesystem effects of the
materializer are modelled by an oracle (`FsOracle`) saying which directory
creations and file writes fail, and the materializer's observable behaviour
(which paths are written, which entries are skipped and why) is collected in a
`MaterializationOutcome` value; the fatal `sys.exit(1)` on root-creation
failure is modelled as `Except.error`.
-/

/-! ## Basic characters and Python-string helpers -/

/-- Shorthand: the character list of a string literal. -/
def cs (s : String) : List Char := s.toList

/-- The backtick character (0x60). -/
def tick : Char := Char.ofNat 96

/-- Opening curly brace (0x7b). -/
def braceL : Char := Char.ofNat 123

/-- Closing curly brace (0x7d). -/
def braceR : Char := Char.ofNat 125

/-- Double quote (0x22). -/
def quoteC : Char := Char.ofNat 34

/-- Backslash (0x5c). -/
def bslash : Char := Char.ofNat 92

/-- Whitespace as recognised by Python `str.strip` / `str.isspace` and by the
`\s` class of the `re` module, restricted to ASCII: space, tab, newline,
carriage return, vertical tab, form feed. -/
def isWsPy (c : Char) : Bool :=
  c == ' ' || c == '\t' || c == '\n' || c == '\r' ||
  c == Char.ofNat 11 || c == Char.ofNat 12

/-- Python `str.strip()` (both ends, whitespace). -/
def trimChars (l : List Char) : List Char :=
  ((l.dropWhile isWsPy).reverse.dropWhile isWsPy).reverse

/-- Python `"\n".join(lines)`. -/
def joinNl : List (List Char) → List Char
  | [] => []
  | [l] => l
  | l :: ls => l ++ '\n' :: joinNl ls

/-- Python `s.split('\n')`: always returns at least one (possibly empty)
piece; every `'\n'` separates two pieces. -/
def splitOnNl : List Char → List (List Char)
  | [] => [[]]
  | c :: r =>
    if c = '\n' then [] :: splitOnNl r
    else
      match splitOnNl r with
      | [] => [[c]]
      | l :: ls => (c :: l) :: ls

/-- First index at which character `c` occurs in `l` (Python `str.find`,
restricted to single characters, as an `Option`). -/
def firstIdxOf (c : Char) : List Char → Option Nat
  | [] => none
  | a :: l => if a = c then some 0 else (firstIdxOf c l).map (· + 1)

/-- Last index at which character `c` occurs in `l` (Python `str.rfind` as an
`Option`). -/
def lastIdxOf (c : Char) (l : List Char) : Option Nat :=
  (firstIdxOf c l.reverse).map (fun i => l.length - 1 - i)

/-- First index at which the pattern `pat` occurs as a contiguous substring of
`s` (the position at which `re.search` anchors a pattern that begins with this
literal). -/
def firstOccur (pat : List Char) : List Char → Option Nat
  | [] => if pat.isPrefixOf [] then some 0 else none
  | a :: rest =>
    if pat.isPrefixOf (a :: rest) then some 0
    else (firstOccur pat rest).map (· + 1)

/-- Drop the last `n` characters (`s[:-n]` for `0 < n ≤ len s`). -/
def dropTail (l : List Char) (n : Nat) : List Char :=
  l.take (l.length - n)

/-! ## JSON values and a model of Python `json.loads`

`JVal` is the tree of parsed JSON values.  Numbers keep their source lexeme
(this development never needs numeric semantics, only syntactic success or
failure and equality of parses of equal texts).  Objects keep their fields in
source order as an association list; Python's `dict` keeps the last value for
a duplicated key, a difference that no theorem below depends on (no input used
has duplicate keys). -/

inductive JVal where
  | jnull
  | jbool (b : Bool)
  | jnum (lexeme : List Char)
  | jstr (s : List Char)
  | jarr (items : List JVal)
  | jobj (fields : List (List Char × JVal))
deriving Repr, Inhabited

/-- JSON whitespace skipped by the Python `json` scanner: space, tab,
newline, carriage return. -/
def isJsonWs (c : Char) : Bool :=
  c == ' ' || c == '\t' || c == '\n' || c == '\r'

/-- Skip JSON whitespace. -/
def skipJWs (s : List Char) : List Char := s.dropWhile isJsonWs

/-- Hexadecimal digit value. -/
def hexVal (c : Char) : Option Nat :=
  if '0' ≤ c ∧ c ≤ '9' then some (c.toNat - 48)
  else if 'a' ≤ c ∧ c ≤ 'f' then some (c.toNat - 87)
  else if 'A' ≤ c ∧ c ≤ 'F' then some (c.toNat - 70)
  else none

/-- Parse the body of a JSON string (after the opening quote) up to and
including the closing quote, decoding escapes, rejecting raw control
characters, as Python's strict `json` string scanner does.  A `\uXXXX` escape
is decoded to the scalar `Char.ofNat` of its code (astral surrogate pairs are
not recombined; no theorem below uses `\u` escapes). -/
def pString : List Char → Option (List Char × List Char)
  | [] => none
  | c :: r =>
    if c = quoteC then some ([], r)
    else if c = bslash then
      match r with
      | [] => none
      | e :: r2 =>
        if e = quoteC then (pString r2).map (fun p => (quoteC :: p.1, p.2))
        else if e = bslash then (pString r2).map (fun p => (bslash :: p.1, p.2))
        else if e = '/' then (pString r2).map (fun p => ('/' :: p.1, p.2))
        else if e = 'b' then (pString r2).map (fun p => (Char.ofNat 8 :: p.1, p.2))
        else if e = 'f' then (pString r2).map (fun p => (Char.ofNat 12 :: p.1, p.2))
        else if e = 'n' then (pString r2).map (fun p => ('\n' :: p.1, p.2))
        else if e = 'r' then (pString r2).map (fun p => ('\r' :: p.1, p.2))
        else if e = 't' then (pString r2).map (fun p => ('\t' :: p.1, p.2))
        else if e = 'u' then
          match r2 with
          | h1 :: h2 :: h3 :: h4 :: r6 =>
            match hexVal h1, hexVal h2, hexVal h3, hexVal h4 with
            | some a, some b, some c3, some d =>
              (pString r6).map (fun p => (Char.ofNat (((a * 16 + b) * 16 + c3) * 16 + d) :: p.1, p.2))
            | _, _, _, _ => none
          | _ => none
        else none
    else if c.toNat < 32 then none
    else (pString r).map (fun p => (c :: p.1, p.2))

/-- Lex a JSON number (the `NUMBER_RE` of Python's `json` scanner):
`-?(0|[1-9][0-9]*)(\.[0-9]+)?([eE][+-]?[0-9]+)?`.  Returns the lexeme and the
rest. -/
def lexNumber (s : List Char) : Option (List Char × List Char) :=
  let (neg, s1) :=
    match s with
    | c :: r => if c = '-' then (['-'], r) else (([] : List Char), s)
    | [] => ([], s)
  match s1 with
  | [] => none
  | c :: r =>
    if ¬ c.isDigit then none
    else
      let (intPart, s2) :=
        if c = '0' then (['0'], r)
        else
          let digs := r.takeWhile Char.isDigit
          (c :: digs, r.drop digs.length)
      let (fracPart, s3) :=
        match s2 with
        | d :: r2 =>
          if d = '.' then
            let digs := r2.takeWhile Char.isDigit
            if digs = [] then (([] : List Char), s2)
            else ('.' :: digs, r2.drop digs.length)
          else ([], s2)
        | [] => ([], s2)
      let (expPart, s4) :=
        match s3 with
        | e :: r3 =>
          if e = 'e' ∨ e = 'E' then
            let (sgn, r4) :=
              match r3 with
              | g :: r5 => if g = '+' ∨ g = '-' then ([g], r5) else (([] : List Char), r3)
              | [] => ([], r3)
            let digs := r4.takeWhile Char.isDigit
            if digs = [] then (([] : List Char), s3)
            else (e :: sgn ++ digs, r4.drop digs.length)
          else ([], s3)
        | [] => ([], s3)
      some (neg ++ intPart ++ fracPart ++ expPart, s4)

/-- Parsing mode of the recursive-descent scanner: a single value, the items
of an array after `[`, or the fields of an object after `{` (in both cases
with at least one element present). -/
inductive PMode where
  | value
  | arrItems
  | objFields

/-- Result of one scanner call, tagged by mode. -/
inductive PRes where
  | rv (v : JVal) (rest : List Char)
  | ri (vs : List JVal) (rest : List Char)
  | rf (fs : List (List Char × JVal)) (rest : List Char)

/-- The recursive-descent scanner of Python's `json` module (pure-Python
`json.scanner` semantics with `strict=True` and the default `NaN` /
`Infinity` constants), written with explicit fuel so that it is structural
and kernel-computable. -/
def parseF : Nat → PMode → List Char → Option PRes
  | 0, _, _ => none
  | Nat.succ fuel, PMode.value, s =>
    match skipJWs s with
    | [] => none
    | c :: r =>
      if c = braceL then
        match skipJWs r with
        | [] => none
        | c2 :: r2 =>
          if c2 = braceR then some (PRes.rv (JVal.jobj []) r2)
          else
            match parseF fuel PMode.objFields (c2 :: r2) with
            | some (PRes.rf fs rest) => some (PRes.rv (JVal.jobj fs) rest)
            | _ => none
      else if c = '[' then
        match skipJWs r with
        | [] => none
        | c2 :: r2 =>
          if c2 = ']' then some (PRes.rv (JVal.jarr []) r2)
          else
            match parseF fuel PMode.arrItems (c2 :: r2) with
            | some (PRes.ri vs rest) => some (PRes.rv (JVal.jarr vs) rest)
            | _ => none
      else if c = quoteC then
        (pString r).map (fun p => PRes.rv (JVal.jstr p.1) p.2)
      else if c = 't' then
        match r with
        | 'r' :: 'u' :: 'e' :: rest => some (PRes.rv (JVal.jbool true) rest)
        | _ => none
      else if c = 'f' then
        match r with
        | 'a' :: 'l' :: 's' :: 'e' :: rest => some (PRes.rv (JVal.jbool false) rest)
        | _ => none
      else if c = 'n' then
        match r with
        | 'u' :: 'l' :: 'l' :: rest => some (PRes.rv JVal.jnull rest)
        | _ => none
      else if (cs "NaN").isPrefixOf (c :: r) then
        some (PRes.rv (JVal.jnum (cs "NaN")) ((c :: r).drop 3))
      else if (cs "Infinity").isPrefixOf (c :: r) then
        some (PRes.rv (JVal.jnum (cs "Infinity")) ((c :: r).drop 8))
      else if (cs "-Infinity").isPrefixOf (c :: r) then
        some (PRes.rv (JVal.jnum (cs "-Infinity")) ((c :: r).drop 9))
      else
        match lexNumber (c :: r) with
        | some (lx, rest) => some (PRes.rv (JVal.jnum lx) rest)
        | none => none
  | Nat.succ fuel, PMode.arrItems, s =>
    match parseF fuel PMode.value s with
    | some (PRes.rv v r) =>
      match skipJWs r with
      | [] => none
      | c :: r2 =>
        if c = ',' then
          match parseF fuel PMode.arrItems r2 with
          | some (PRes.ri vs rest) => some (PRes.ri (v :: vs) rest)
          | _ => none
        else if c = ']' then some (PRes.ri [v] r2)
        else none
    | _ => none
  | Nat.succ fuel, PMode.objFields, s =>
    match skipJWs s with
    | [] => none
    | c :: r =>
      if c = quoteC then
        match pString r with
        | some (key, r2) =>
          match skipJWs r2 with
          | [] => none
          | c3 :: r3 =>
            if c3 = ':' then
              match parseF fuel PMode.value r3 with
              | some (PRes.rv v r4) =>
                match skipJWs r4 with
                | [] => none
                | c5 :: r5 =>
                  if c5 = ',' then
                    match parseF fuel PMode.objFields r5 with
                    | some (PRes.rf fs rest) => some (PRes.rf ((key, v) :: fs) rest)
                    | _ => none
                  else if c5 = braceR then some (PRes.rf [(key, v)] r5)
                  else none
              | _ => none
            else none
        | none => none
      else none

/-- Python `json.loads`: parse one JSON document, allowing surrounding JSON
whitespace and nothing else.  The fuel `s.length + 1` suffices because every
recursive descent consumes at least one character. -/
def jsonParse (s : List Char) : Option JVal :=
  match parseF (s.length + 1) PMode.value s with
  | some (PRes.rv v rest) => if skipJWs rest = [] then some v else none
  | _ => none

/-! ## The Structured-Data Extractor: `parse_analysis_response`

`parse_analysis_response` (code2test.py, lines 170-238) tries four strategies
in order, each only when every previous one failed to yield valid JSON:

1. `json.loads(response_text.strip())`;
2. search for the first block matching ```` ```json\s*([\s\S]*?)\s*``` ````
   and `json.loads` its stripped group — equivalently: take the text between
   the first occurrence of the 7-character opener and the first subsequent
   occurrence of the 3-backtick closer, stripped (the regex matches at the
   first opener whenever any closer follows it, and a later opener cannot be
   the first match since it contains a closer as a substring);
3. search for `(\{[\s\S]*\})` — the substring from the first `{` to the last
   `}` when the former precedes the latter — and `json.loads` it;
4. if the stripped text both starts and ends with the 3-backtick fence,
   `re.sub(r"^```(?:json)?\s*([\s\S]*)\s*```$", r"\1", ...)` and `json.loads`
   the result; the anchored pattern matches exactly when the stripped text
   has length ≥ 6 (so the fences do not overlap), in which case the greedy
   group is the text minus the opening fence, an optional `json` tag, the
   whitespace after it, and the closing fence; otherwise `re.sub` leaves the
   text unchanged.

On overall failure the Python function prints at most the first 500
characters of the raw text and returns `None`. -/

/-- Strategy 1: parse the stripped whole text. -/
def strat1 (t : List Char) : Option JVal := jsonParse (trimChars t)

/-- Strategy 2: parse the stripped interior of the first ```` ```json ````
fenced block (up to the first subsequent ```` ``` ````). -/
def strat2 (t : List Char) : Option JVal :=
  match firstOccur (cs "```json") t with
  | none => none
  | some i =>
    match firstOccur (cs "```") (t.drop (i + 7)) with
    | none => none
    | some j => jsonParse (trimChars ((t.drop (i + 7)).take j))

/-- Strategy 3: parse the substring from the first `{` to the last `}`. -/
def strat3 (t : List Char) : Option JVal :=
  match firstIdxOf braceL t, lastIdxOf braceR t with
  | some i, some j =>
    if i < j then jsonParse ((t.drop i).take (j - i + 1)) else none
  | _, _ => none

/-- The string produced by the strategy-4 `re.sub` on a stripped text that
starts and ends with the fence token (unchanged when the anchored pattern
cannot match, i.e. when the two fences would overlap). -/
def strat4clean (s : List Char) : List Char :=
  if 6 ≤ s.length then
    let b := s.drop 3
    let b2 := if (cs "json").isPrefixOf b then b.drop 4 else b
    dropTail (b2.dropWhile isWsPy) 3
  else s

/-- Strategy 4: strip exactly the outermost fence of a text that starts and
ends with the fence token, then parse. -/
def strat4 (t : List Char) : Option JVal :=
  let s := trimChars t
  if (cs "```").isPrefixOf s ∧ (cs "```").isSuffixOf s then
    jsonParse (strat4clean s)
  else none

/-- The four-strategy cascade of `parse_analysis_response`. -/
def parse_analysis_response (t : List Char) : Option JVal :=
  match strat1 t with
  | some v => some v
  | none =>
    match strat2 t with
    | some v => some v
    | none =>
      match strat3 t with
      | some v => some v
      | none => strat4 t

/-- Result of the full extractor call: a parsed plan, or the failure signal
(the Python function returns `None`) together with its bounded diagnostic
(the Python function prints `response_text[:500]`, suffixed with `"..."` when
the text is longer). -/
inductive ExtractionResult where
  | plan (v : JVal)
  | failed (diagnostic : List Char)

/-- The function `parse_analysis_response` together with its failure diagnostic. -/
def parse_analysis_response_full (t : List Char) : ExtractionResult :=
  match parse_analysis_response t with
  | some v => ExtractionResult.plan v
  | none => ExtractionResult.failed (t.take 500)

/-! ## The Multi-File Response Parser: `parse_generation_response`

The boundary-marker pattern of `parse_generation_response` (code2test.py,
line 321) is `^--- File:\s*(.*?)\s*(?:---)?$`.  A line matches exactly when
it starts with the literal `--- File:`; the lazy group, after the code's
subsequent `.strip()`, is the shortest prefix of the rest (after its leading
whitespace) whose complement matches `\s*(?:---)?$`, i.e. is all whitespace
or is `---` after leading whitespace.

`parse_validation_response` (line 536) instead uses
`^--- File:\s*(.*?)\s*(?:---)?(?:\s*\(NEW\))?$`, whose tail additionally
allows an optional `(NEW)` after the optional closing `---`. -/

/-- Does `u` match `\s*(?:---)?$`? -/
def tailOk (u : List Char) : Bool :=
  u.all isWsPy || u.dropWhile isWsPy == cs "---"

/-- The lazy group of the generation-parser marker pattern: shortest prefix
whose complement satisfies `tailOk` (total: the empty complement does). -/
def delimGroup : List Char → List Char
  | [] => []
  | c :: r => if tailOk (c :: r) then [] else c :: delimGroup r

/-- Model of `file_delimiter_pattern.match(line)` followed by `.group(1).strip()` for
the generation parser. -/
def extractDelimPath (line : List Char) : Option (List Char) :=
  if (cs "--- File:").isPrefixOf line then
    some (trimChars (delimGroup ((line.drop 9).dropWhile isWsPy)))
  else none

/-- Does `u` match `\s*(?:---)?(?:\s*\(NEW\))?$` (the validation-parser
variant)? -/
def tailOkV (u : List Char) : Bool :=
  let v := u.dropWhile isWsPy
  v == [] || v == cs "(NEW)" ||
    ((cs "---").isPrefixOf v &&
      (let v2 := (v.drop 3).dropWhile isWsPy
       v2 == [] || v2 == cs "(NEW)"))

/-- The lazy group of the validation-parser marker pattern. -/
def delimGroupV : List Char → List Char
  | [] => []
  | c :: r => if tailOkV (c :: r) then [] else c :: delimGroupV r

/-- Model of `file_delimiter_pattern.match(line)` followed by `.group(1).strip()` for
the validation parser (the pattern with the optional `(NEW)` annotation). -/
def extractDelimPathV (line : List Char) : Option (List Char) :=
  if (cs "--- File:").isPrefixOf line then
    some (trimChars (delimGroupV ((line.drop 9).dropWhile isWsPy)))
  else none

/-- A word character of the regex class `\w`, ASCII: letter, digit or
underscore (the language tag of `^```(\w*)$`). -/
def isWordChar (c : Char) : Bool :=
  ('a' ≤ c && c ≤ 'z') || ('A' ≤ c && c ≤ 'Z') || ('0' ≤ c && c ≤ '9') || c == Char.ofNat 95

/-- Model of `code_block_pattern.match(line.strip())` with pattern `^```(\w*)$`: the
stripped line is the 3-backtick fence token followed only by word
characters. -/
def isFenceLine (line : List Char) : Bool :=
  let t := trimChars line
  (cs "```").isPrefixOf t && (t.drop 3).all isWordChar

/-- Model of `current_path.lower().endswith(('.md', '.markdown'))`. -/
def isMarkdownFile (p : List Char) : Bool :=
  let lo := p.map Char.toLower
  (cs ".md").isSuffixOf lo || (cs ".markdown").isSuffixOf lo

/-- The line loop of `process_content` (code2test.py, lines 339-354),
carrying its two state flags.  `skip_next_line` is never set to `True`
anywhere in the loop, and `in_internal_block` is toggled but never read, so
the loop keeps exactly the lines that are not fence-marker lines; this is
proved below, the definition follows the source loop. -/
def processLoop : List (List Char) → Bool → Bool → List (List Char)
  | [], _, _ => []
  | l :: rest, skipNext, inBlock =>
    if skipNext then processLoop rest false inBlock
    else if isFenceLine l then processLoop rest skipNext (!inBlock)
    else l :: processLoop rest skipNext inBlock

/-- Model of `process_content(content_list, is_markdown_file)` (code2test.py, lines
325-356): empty buffer gives the empty string; a markdown file's buffer is
joined verbatim; any other buffer goes through the fence-dropping loop. -/
def process_content (contentList : List (List Char)) (isMarkdownArg : Bool) : List Char :=
  if contentList = [] then []
  else if isMarkdownArg then joinNl contentList
  else joinNl (processLoop contentList false false)

/-- Assignment `files[normalized_path] = processed_content` on a Python `dict`: replace
in place when the key is present (insertion order kept), else append. -/
def dictInsert (m : List (List Char × List Char)) (k v : List Char) :
    List (List Char × List Char) :=
  if m.any (fun e => e.1 == k) then
    m.map (fun e => if e.1 == k then (k, v) else e)
  else m ++ [(k, v)]

/-- The `os.sep` normalisation applied to the path at flush time on POSIX:
`path.replace('/', os.sep).replace('\\', os.sep)` turns backslashes into
slashes. -/
def normalizeSep (p : List Char) : List Char :=
  p.map (fun c => if c = bslash then '/' else c)

/-- Flush one buffered file: post-process the buffer according to the path's
extension and insert it keyed by the separator-normalised path. -/
def flushInto (files : List (List Char × List Char)) (path : List Char)
    (content : List (List Char)) : List (List Char × List Char) :=
  dictInsert files (normalizeSep path) (process_content content (isMarkdownFile path))

/-- The line loop of `parse_generation_response`: `files`, `current_path`,
`current_content` evolve per line; a marker line flushes any current buffer
and restarts accumulation under the new path; other lines are buffered when
a file is current and discarded otherwise; end of input flushes the final
buffer. -/
def runLines : List (List Char) → List (List Char × List Char) →
    Option (List Char) → List (List Char) → List (List Char × List Char)
  | [], files, cur, cont =>
    match cur with
    | none => files
    | some p => flushInto files p cont
  | l :: ls, files, cur, cont =>
    match extractDelimPath l with
    | some g =>
      match cur with
      | none => runLines ls files (some g) []
      | some p => runLines ls (flushInto files p cont) (some g) []
    | none =>
      match cur with
      | none => runLines ls files none cont
      | some p => runLines ls files (some p) (cont ++ [l])

/-- Model of `parse_generation_response(response)` (code2test.py, lines 310-396): strip
the response, split on newlines, run the marker state machine, and return the
ordered path-to-content mapping.  (The code also toggles an `in_code_block`
flag on non-marker lines, which is never read.)  The code prints a warning
exactly when the returned mapping is empty. -/
def parse_generation_response (response : List Char) : List (List Char × List Char) :=
  runLines (splitOnNl (trimChars response)) [] none []

/-! ## The Path-Safe Materializer: `store_test_files`

`store_test_files` (code2test.py, lines 650-714) works over `os.path` on the
POSIX separator `/`.  The sandbox root is the already-absolute, normalised
directory `abs_output_dir = os.path.abspath(output_dir)`; the model takes it
as a parameter, together with the process working directory used by
`os.path.abspath`.  Filesystem failures are abstracted by an oracle:
`rootMissing` / `rootCreateFails` model the existence check and `os.makedirs`
on the root (whose failure is `sys.exit(1)`), `dirMissing d` / `mkdirFails d`
model the per-entry `os.path.exists(file_dir)` check and `os.makedirs`
failure, and `writeFails p` models an exception from `open`/`write`.  The
non-fatal `shutil.rmtree` of `--clear-output` only changes which of these
oracle answers arise, so it does not appear separately. -/

/-- Python `s.split(c)` for a single-character separator. -/
def splitOnChar (sep : Char) : List Char → List (List Char)
  | [] => [[]]
  | c :: r =>
    if c = sep then [] :: splitOnChar sep r
    else
      match splitOnChar sep r with
      | [] => [[c]]
      | l :: ls => (c :: l) :: ls

/-- Model of `os.path.isabs` on POSIX: starts with a slash. -/
def isabs (p : List Char) : Bool := (cs "/").isPrefixOf p

/-- Model of `posixpath.normpath`: collapse empty and `.` segments, cancel `..`
against a preceding real segment, keep leading `..` of relative paths, drop
`..` at the root, preserve one (or exactly two) leading slashes. -/
def normpath (p : List Char) : List Char :=
  if p = [] then cs "."
  else
    let initialSlashes : Nat :=
      if (cs "/").isPrefixOf p then
        if (cs "//").isPrefixOf p ∧ ¬ (cs "///").isPrefixOf p then 2 else 1
      else 0
    let newComps := (splitOnChar '/' p).foldl
      (fun acc comp =>
        if comp = [] ∨ comp = cs "." then acc
        else if comp ≠ cs ".." ∨ (initialSlashes = 0 ∧ acc = []) ∨
            acc.getLast? = some (cs "..") then
          acc ++ [comp]
        else if acc ≠ [] then acc.dropLast
        else acc)
      []
    let res := List.replicate initialSlashes '/' ++ List.intercalate (cs "/") newComps
    if res = [] then cs "." else res

/-- Model of `posixpath.join` for two arguments. -/
def joinP (a b : List Char) : List Char :=
  if isabs b then b
  else if a = [] ∨ a.getLast? = some '/' then a ++ b
  else a ++ '/' :: b

/-- Model of `os.path.abspath`: absolutise against the working directory, then
normalise.  `abspath` performs no symbolic-link resolution. -/
def abspath (cwd p : List Char) : List Char :=
  if isabs p then normpath p else normpath (joinP cwd p)

/-- Strip trailing slashes (`str.rstrip('/')`). -/
def dropTrailingSlashes (p : List Char) : List Char :=
  (p.reverse.dropWhile (fun c => c == '/')).reverse

/-- Model of `posixpath.dirname`. -/
def dirname (p : List Char) : List Char :=
  match lastIdxOf '/' p with
  | none => []
  | some i =>
    let head := p.take (i + 1)
    if head ≠ [] ∧ ¬ head.all (fun c => c == '/') then dropTrailingSlashes head
    else head

/-- Reason an entry is skipped, in the order the checks occur in the
per-entry loop. -/
inductive SkipReason where
  | emptyPath        -- empty or whitespace-only relative path
  | unsafePath       -- a `..` segment survives normalisation
  | absolutePath     -- the normalised path is absolute
  | outsideRoot      -- the final absolute path escapes the root
  | mkdirError       -- creating the entry's subdirectory failed
  | writeError       -- writing the file failed
deriving Repr, DecidableEq

/-- Filesystem behaviour oracle for one `store_test_files` call. -/
structure FsOracle where
  rootMissing : Bool
  rootCreateFails : Bool
  dirMissing : List Char → Bool
  mkdirFails : List Char → Bool
  writeFails : List Char → Bool

/-- An oracle on which every filesystem operation succeeds and every needed
subdirectory is missing (so creation is attempted). -/
def honestFs : FsOracle :=
  { rootMissing := false, rootCreateFails := false,
    dirMissing := fun _ => true, mkdirFails := fun _ => false,
    writeFails := fun _ => false }

/-- The outcome record `{ written, skipped }`: the observable per-entry outcome of one
materializer call — which absolute paths were written, and which entry paths
were skipped for which reason. -/
structure MaterializationOutcome where
  written : List (List Char)
  skipped : List (List Char × SkipReason)
deriving Repr, DecidableEq

/-- The per-entry validation pipeline of the loop body (code2test.py, lines
673-712): empty/whitespace check, `normpath`, `..`-segment check, `isabs`
check, join + `abspath`, the root-prefix sandbox check, subdirectory
creation, then the write.  Returns the skip reason or the absolute path
written. -/
def entryOutcome (root cwd : List Char) (fs : FsOracle) (rel : List Char) :
    Sum SkipReason (List Char) :=
  if rel.all isWsPy then Sum.inl SkipReason.emptyPath
  else
    let nrel := normpath rel
    if (splitOnChar '/' nrel).any (fun seg => seg == cs "..") then
      Sum.inl SkipReason.unsafePath
    else if isabs nrel then Sum.inl SkipReason.absolutePath
    else
      let full := abspath cwd (joinP root nrel)
      if ¬ ((root ++ cs "/").isPrefixOf full) ∧ full ≠ root then
        Sum.inl SkipReason.outsideRoot
      else
        let fileDir := dirname full
        if fileDir ≠ [] ∧ fileDir ≠ root ∧ fs.dirMissing fileDir ∧ fs.mkdirFails fileDir then
          Sum.inl SkipReason.mkdirError
        else if fs.writeFails full then Sum.inl SkipReason.writeError
        else Sum.inr full

/-- One iteration of the `store_test_files` loop: record the entry as
written or as skipped and continue (per-entry problems never abort the
batch). -/
def storeStep (root cwd : List Char) (fs : FsOracle)
    (acc : MaterializationOutcome) (e : List Char × List Char) : MaterializationOutcome :=
  match entryOutcome root cwd fs e.1 with
  | Sum.inl r => { acc with skipped := acc.skipped ++ [(e.1, r)] }
  | Sum.inr full => { acc with written := acc.written ++ [full] }

/-- Model of `store_test_files(files, output_dir, clear_output)` over the oracle:
`sys.exit(1)` (modelled as `Except.error ()`) exactly when the root is
missing and creating it fails; otherwise every entry is processed in order
and contributes to the outcome.  `clearOutput` only influences the run
through the oracle (a failed `rmtree` is logged and ignored by the code). -/
def store_test_files (files : List (List Char × List Char)) (root cwd : List Char)
    (_clearOutput : Bool) (fs : FsOracle) : Except Unit MaterializationOutcome :=
  if fs.rootMissing ∧ fs.rootCreateFails then Except.error ()
  else
    Except.ok (files.foldl (storeStep root cwd fs) { written := [], skipped := [] })

/-- The contribution of one entry to `written` (as an `Option`). -/
def entryWritten (root cwd : List Char) (fs : FsOracle) (e : List Char × List Char) :
    Option (List Char) :=
  match entryOutcome root cwd fs e.1 with
  | Sum.inr full => some full
  | Sum.inl _ => none

/-- The contribution of one entry to `skipped` (as an `Option`). -/
def entrySkipped (root cwd : List Char) (fs : FsOracle) (e : List Char × List Char) :
    Option (List Char × SkipReason) :=
  match entryOutcome root cwd fs e.1 with
  | Sum.inl r => some (e.1, r)
  | Sum.inr _ => none

/-- A model of filesystem symbolic-link resolution (what `os.path.realpath`
performs and `os.path.abspath` does not): walk an absolute normalised path
segment by segment, replacing any accumulated prefix recorded in the link
table by its (already fully resolved, absolute) target. -/
def resolveLinks (links : List (List Char × List Char)) (p : List Char) : List Char :=
  (splitOnChar '/' p).foldl
    (fun cur seg =>
      if seg = [] then cur
      else
        let cand := cur ++ '/' :: seg
        match links.find? (fun e => e.1 == cand) with
        | some e => e.2
        | none => cand)
    []

/-! ## Fixtures and statement-side constructions -/

/-- The four entry paths of the spec's sandbox-rejection scenario, in order. -/
def exFiles : List (List Char × List Char) :=
  [(cs "../secret", cs "x"), (cs "/etc/passwd", cs "x"),
   (cs "a/../../b", cs "x"), (cs "a/b/c.txt", cs "body")]

/-- The expected outcome of materializing `exFiles` under root `/out`. -/
def exOutcome : MaterializationOutcome :=
  { written := [cs "/out/a/b/c.txt"],
    skipped := [(cs "../secret", SkipReason.unsafePath),
                (cs "/etc/passwd", SkipReason.absolutePath),
                (cs "a/../../b", SkipReason.unsafePath)] }

/-- A link table making `/out/ln` a symbolic link to `/etc`. -/
def exLinks : List (List Char × List Char) := [(cs "/out/ln", cs "/etc")]

/-- The canonical boundary-marker line for a path (sentinel, path, closing
sentinel — the format the generation prompt instructs). -/
def markerLine (p : List Char) : List Char :=
  cs "--- File: " ++ p ++ cs " ---"

/-- The lines of a response announcing the given files: each file's marker
line followed by its body lines. -/
def responseLines (fs : List (List Char × List (List Char))) : List (List Char) :=
  fs.flatMap (fun pb => markerLine pb.1 :: pb.2)

/-- The raw response text announcing the given files. -/
def buildResponse (fs : List (List Char × List (List Char))) : List Char :=
  joinNl (responseLines fs)

/-- A path usable in a boundary marker without ambiguity: nonempty, free of
whitespace (hence of newlines) and of backslashes. -/
def goodPath (p : List Char) : Prop :=
  p ≠ [] ∧ (∀ c ∈ p, isWsPy c = false) ∧ bslash ∉ p

/-- A body line: no embedded newline and not itself a boundary marker. -/
def goodBodyLine (l : List Char) : Prop :=
  '\n' ∉ l ∧ (cs "--- File:").isPrefixOf l = false

/-- All paths and body lines of a file list are well formed. -/
def goodFiles (fs : List (List Char × List (List Char))) : Prop :=
  ∀ pb ∈ fs, goodPath pb.1 ∧ ∀ l ∈ pb.2, goodBodyLine l

/-- The post-processed body stored for a path when its buffer is flushed. -/
def processBody (p : List Char) (b : List (List Char)) : List Char :=
  process_content b (isMarkdownFile p)

/-- Wrap a serialized value in a `json`-tagged triple-backtick fence. -/
def taggedWrap (s : List Char) : List Char :=
  cs "```json\n" ++ s ++ cs "\n```"

/-- Wrap a serialized value in an untagged triple-backtick fence. -/
def untaggedWrap (s : List Char) : List Char :=
  cs "```\n" ++ s ++ cs "\n```"

/-- The spec's concrete extractor scenario: prose, a `json`-tagged fence
around an object, more prose. -/
def scenarioC7 : List Char :=
  cs "Here is the plan:\n```json\n\x7b\"a\":1\x7d\n```\nThanks"

/-- A text with two `json`-tagged fenced blocks: the first block's interior
is invalid JSON, the second block's is valid. -/
def twoBlockText : List Char :=
  cs "```json\n\x7boops\n```\n```json\n\x7b\"b\":2\x7d\n```"

/-- A concrete two-file set (one buffer containing a fence line, one
markdown path) for instantiating the parser state-machine theorem. -/
def exC4 : List (List Char × List (List Char)) :=
  [(cs "a.robot", [cs "x", cs "```"]), (cs "b.md", [cs "y"])]

/-! ## Helper lemmas -/

theorem store_foldl_spec (root cwd : List Char) (fs : FsOracle) :
    ∀ (files : List (List Char × List Char)) (w : List (List Char))
      (s : List (List Char × SkipReason)),
      files.foldl (storeStep root cwd fs) { written := w, skipped := s } =
        { written := w ++ files.filterMap (entryWritten root cwd fs),
          skipped := s ++ files.filterMap (entrySkipped root cwd fs) } := by
  intro files
  induction files with
  | nil => intro w s; simp
  | cons e rest ih =>
    intro w s
    rcases h : entryOutcome root cwd fs e.1 with r | full
    · simp only [List.foldl_cons, storeStep, h, List.filterMap_cons, entryWritten,
        entrySkipped, ih]
      simp [h, List.append_assoc]
    · simp only [List.foldl_cons, storeStep, h, List.filterMap_cons, entryWritten,
        entrySkipped, ih]
      simp [h, List.append_assoc]

theorem entryOutcome_inr_inside (root cwd : List Char) (fs : FsOracle)
    (rel full : List Char) (h : entryOutcome root cwd fs rel = Sum.inr full) :
    full = root ∨ (root ++ cs "/").isPrefixOf full = true := by
  simp only [entryOutcome] at h
  split_ifs at h with h1 h2 h3 h4 h5 h6
  injection h with h'
  subst h'
  rcases not_and_or.mp h4 with hp | hq
  · exact Or.inr (not_not.mp hp)
  · exact Or.inl (not_not.mp hq)

/-! ## Claims about the Materializer (C1, C2, C3) -/

/-- C1: every file the Materializer actually writes resolves to a path inside
the root — each path in `written` is the root itself or has `root ++ "/"` as
a prefix — and on the spec's concrete scenario under root `/out` the entries
`../secret`, `/etc/passwd` and `a/../../b` are rejected with nothing written
for them while `a/b/c.txt` is written to `/out/a/b/c.txt`, whose directory
`/out/a/b` (creating the intermediate directories `a` and `a/b`, since
`os.makedirs` is recursive) is the one handed to directory creation. -/
theorem materializer_writes_stay_in_root :
    (∀ (files : List (List Char × List Char)) (root cwd : List Char)
        (clear : Bool) (fs : FsOracle) (oc : MaterializationOutcome),
      store_test_files files root cwd clear fs = Except.ok oc →
      ∀ p ∈ oc.written, p = root ∨ (root ++ cs "/").isPrefixOf p = true)
    ∧ store_test_files exFiles (cs "/out") (cs "/cwd") false honestFs = Except.ok exOutcome
    ∧ dirname (cs "/out/a/b/c.txt") = cs "/out/a/b" := by
  refine ⟨?_, by rfl, by rfl⟩
  intro files root cwd clear fs oc hok p hp
  rw [store_test_files] at hok
  split_ifs at hok
  injection hok with hok
  rw [store_foldl_spec] at hok
  rw [← hok] at hp
  simp only [List.nil_append] at hp
  rcases List.mem_filterMap.mp hp with ⟨e, _, he⟩
  rw [entryWritten] at he
  rcases h : entryOutcome root cwd fs e.1 with r | full
  · rw [h] at he; exact Option.noConfusion he
  · rw [h] at he
    injection he with he
    rw [← he]
    exact entryOutcome_inr_inside root cwd fs e.1 full h

/-- C1 witness: the universal part applied to the concrete scenario. -/
theorem materializer_writes_stay_in_root_witness :
    store_test_files exFiles (cs "/out") (cs "/cwd") false honestFs = Except.ok exOutcome ∧
    (∀ p ∈ exOutcome.written, p = cs "/out" ∨ (cs "/out" ++ cs "/").isPrefixOf p = true) :=
  ⟨by rfl,
   materializer_writes_stay_in_root.1 exFiles (cs "/out") (cs "/cwd") false honestFs
     exOutcome (by rfl)⟩

/-- C2: the code's "authoritative sandbox check" runs on
`os.path.abspath(os.path.join(root, normalized))`, which collapses segments
but resolves no symbolic links (despite the adjacent source comment
"Resolve any potential symbolic links etc.").  With `/out/ln` a symbolic
link to `/etc`, the entry `ln/passwd` passes the check and is written to
`/out/ln/passwd`, yet its link-resolved location `/etc/passwd` is neither
the root nor under `root + separator` — so the check is not performed on the
fully resolved canonical path, contrary to the claim. -/
theorem sandbox_check_misses_symlinks :
    entryOutcome (cs "/out") (cs "/cwd") honestFs (cs "ln/passwd") =
      Sum.inr (cs "/out/ln/passwd")
    ∧ abspath (cs "/cwd") (joinP (cs "/out") (normpath (cs "ln/passwd"))) =
      cs "/out/ln/passwd"
    ∧ (cs "/out" ++ cs "/").isPrefixOf (cs "/out/ln/passwd") = true
    ∧ resolveLinks exLinks (cs "/out/ln/passwd") = cs "/etc/passwd"
    ∧ (cs "/out" ++ cs "/").isPrefixOf (cs "/etc/passwd") = false
    ∧ cs "/etc/passwd" ≠ cs "/out" :=
  ⟨by rfl, by rfl, by rfl, by rfl, by rfl, by decide⟩

/-- C3: the Materializer yields a `MaterializationOutcome` aggregating every
entry — each entry contributes exactly its written path or its `(path,
reason)` skip, in order, and the batch continues past every per-entry
failure — and it is a hard error (the modelled `sys.exit(1)`) exactly when
the root directory is missing and creating it fails. -/
theorem materializer_outcome_aggregates :
    ∀ (files : List (List Char × List Char)) (root cwd : List Char)
      (clear : Bool) (fs : FsOracle),
      ((fs.rootMissing ∧ fs.rootCreateFails) →
        store_test_files files root cwd clear fs = Except.error ())
      ∧ (¬ (fs.rootMissing ∧ fs.rootCreateFails) →
        store_test_files files root cwd clear fs =
          Except.ok { written := files.filterMap (entryWritten root cwd fs),
                      skipped := files.filterMap (entrySkipped root cwd fs) }) := by
  intro files root cwd clear fs
  constructor
  · intro h
    rw [store_test_files, if_pos h]
  · intro h
    rw [store_test_files, if_neg h, store_foldl_spec]
    simp

/-- C3 witness: the aggregation applied to the concrete scenario (all four
entries accounted for, none fatal) and the hard-error case on an oracle whose
root creation fails. -/
theorem materializer_outcome_aggregates_witness :
    store_test_files exFiles (cs "/out") (cs "/cwd") false honestFs =
      Except.ok { written := exFiles.filterMap (entryWritten (cs "/out") (cs "/cwd") honestFs),
                  skipped := exFiles.filterMap (entrySkipped (cs "/out") (cs "/cwd") honestFs) }
    ∧ store_test_files exFiles (cs "/out") (cs "/cwd") false
        { honestFs with rootMissing := true, rootCreateFails := true } = Except.error () :=
  ⟨(materializer_outcome_aggregates exFiles (cs "/out") (cs "/cwd") false honestFs).2
     (by simp [honestFs]),
   (materializer_outcome_aggregates exFiles (cs "/out") (cs "/cwd") false
     { honestFs with rootMissing := true, rootCreateFails := true }).1 (by simp [honestFs])⟩

/-! ## Claim about the validation boundary markers (C6) -/

/-- C6: of the four marker combinations, three are keyed by the path token
alone, but a marker carrying both the `(NEW)` annotation and the closing
sentinel — the exact format the validation prompt instructs,
`--- File: path/to/new/file (NEW) ---` — keeps the annotation in the stored
path, because the pattern `^--- File:\s*(.*?)\s*(?:---)?(?:\s*\(NEW\))?$`
only allows the annotation after the closing sentinel.  So the claim (and
the code's own prompt contract) is violated on that combination. -/
theorem marker_annotation_kept_in_path :
    extractDelimPathV (cs "--- File: pages/NewPage.robot") = some (cs "pages/NewPage.robot")
    ∧ extractDelimPathV (cs "--- File: pages/NewPage.robot ---") = some (cs "pages/NewPage.robot")
    ∧ extractDelimPathV (cs "--- File: pages/NewPage.robot (NEW)") = some (cs "pages/NewPage.robot")
    ∧ extractDelimPathV (cs "--- File: pages/NewPage.robot (NEW) ---") =
        some (cs "pages/NewPage.robot (NEW)")
    ∧ cs "pages/NewPage.robot (NEW)" ≠ cs "pages/NewPage.robot" :=
  ⟨by rfl, by rfl, by rfl, by rfl, by decide⟩

/-! ## Claim about per-buffer fence stripping (C5) -/

theorem processLoop_eq_filter :
    ∀ (lines : List (List Char)) (b : Bool),
      processLoop lines false b = lines.filter (fun l => !(isFenceLine l)) := by
  intro lines
  induction lines with
  | nil => intro b; rfl
  | cons l rest ih =>
    intro b
    by_cases h : isFenceLine l
    · simp [processLoop, h, ih]
    · simp [processLoop, h, ih]

/-- C5: a flushed buffer whose path has a prose extension (`.md` or
`.markdown`, case-insensitively) is joined verbatim, fence markers included;
for every other path exactly the lines whose stripped content is the
triple-backtick token followed only by word characters are dropped, wherever
they occur, and every other line (blank lines and lines that merely contain
backticks amid other text included) is kept. -/
theorem prose_preserved_fences_stripped :
    ∀ (p : List Char) (lines : List (List Char)),
      (isMarkdownFile p = true → processBody p lines = joinNl lines)
      ∧ (isMarkdownFile p = false →
          processBody p lines = joinNl (lines.filter (fun l => !(isFenceLine l))))
      ∧ (∀ l : List Char, isFenceLine l = true ↔
          ∃ rest, trimChars l = cs "```" ++ rest ∧ rest.all isWordChar = true) := by
  intro p lines
  refine ⟨?_, ?_, ?_⟩
  · intro hmd
    rw [processBody, process_content, hmd]
    by_cases h : lines = []
    · subst h; rfl
    · simp [h]
  · intro hmd
    rw [processBody, process_content, hmd]
    by_cases h : lines = []
    · subst h; rfl
    · simp only [h, if_false, Bool.false_eq_true, processLoop_eq_filter]
  · intro l
    constructor
    · intro h
      rw [isFenceLine, Bool.and_eq_true] at h
      rcases h with ⟨hp, ha⟩
      rcases List.isPrefixOf_iff_prefix.mp hp with ⟨u, hu⟩
      refine ⟨u, hu.symm, ?_⟩
      have h3 : (cs "```").length = 3 := by rfl
      have : (trimChars l).drop 3 = u := by
        rw [← hu, ← h3, List.drop_left]
      rw [this] at ha
      exact ha
    · rintro ⟨rest, h1, h2⟩
      rw [isFenceLine, h1, Bool.and_eq_true]
      constructor
      · exact List.isPrefixOf_iff_prefix.mpr ⟨rest, rfl⟩
      · have h3 : (cs "```").length = 3 := by rfl
        rw [← h3, List.drop_left]
        exact h2

/-- C5 witness: the two post-processing modes and the fence predicate on
concrete buffers. -/
theorem prose_preserved_fences_stripped_witness :
    processBody (cs "a.robot") [cs "```", cs "x```y", cs "", cs "```robotframework", cs "body"] =
      joinNl ([cs "```", cs "x```y", cs "", cs "```robotframework", cs "body"].filter
        (fun l => !(isFenceLine l)))
    ∧ processBody (cs "README.md") [cs "```", cs "body"] = joinNl [cs "```", cs "body"] :=
  ⟨(prose_preserved_fences_stripped (cs "a.robot")
      [cs "```", cs "x```y", cs "", cs "```robotframework", cs "body"]).2.1 (by rfl),
   ((prose_preserved_fences_stripped (cs "README.md") [cs "```", cs "body"]).1 (by rfl))⟩

/-! ## Claims about the Extractor (C7, C9, C10) -/

/-- C7: the cascade tries the four strategies in order — a later strategy's
result is returned only when every earlier one returned nothing — and on the
spec's concrete scenario (prose, then a `json`-tagged fence around
`{"a":1}`, then prose) strategy 2 yields the object `{a: 1}`. -/
theorem extractor_cascade_order :
    (∀ (t : List Char) (v : JVal), strat1 t = some v → parse_analysis_response t = some v)
    ∧ (∀ (t : List Char) (v : JVal), strat1 t = none → strat2 t = some v →
        parse_analysis_response t = some v)
    ∧ (∀ (t : List Char) (v : JVal), strat1 t = none → strat2 t = none →
        strat3 t = some v → parse_analysis_response t = some v)
    ∧ (∀ t : List Char, strat1 t = none → strat2 t = none → strat3 t = none →
        parse_analysis_response t = strat4 t)
    ∧ parse_analysis_response scenarioC7 = some (JVal.jobj [(cs "a", JVal.jnum (cs "1"))]) := by
  refine ⟨?_, ?_, ?_, ?_, by rfl⟩
  · intro t v h; rw [parse_analysis_response, h]
  · intro t v h1 h2; rw [parse_analysis_response, h1, h2]
  · intro t v h1 h2 h3; rw [parse_analysis_response, h1, h2, h3]
  · intro t h1 h2 h3; rw [parse_analysis_response, h1, h2, h3]

/-- C7 witness: on the concrete scenario, strategy 1 fails, strategy 2
succeeds, and the cascade returns strategy 2's value. -/
theorem extractor_cascade_order_witness :
    strat1 scenarioC7 = none
    ∧ strat2 scenarioC7 = some (JVal.jobj [(cs "a", JVal.jnum (cs "1"))])
    ∧ parse_analysis_response scenarioC7 = some (JVal.jobj [(cs "a", JVal.jnum (cs "1"))]) :=
  ⟨by rfl, by rfl,
   extractor_cascade_order.2.1 scenarioC7 (JVal.jobj [(cs "a", JVal.jnum (cs "1"))])
     (by rfl) (by rfl)⟩

/-- C9: for every input the extractor returns either a parsed plan or the
explicit failure signal carrying a diagnostic that is exactly the first 500
characters of the raw text — never more than 500 characters, and a strict
prefix (never the entire blob) whenever the text is longer than 500. -/
theorem extractor_total_bounded_diagnostic :
    ∀ t : List Char,
      (∃ v, parse_analysis_response_full t = ExtractionResult.plan v)
      ∨ (parse_analysis_response_full t = ExtractionResult.failed (t.take 500)
         ∧ (t.take 500).length ≤ 500
         ∧ (500 < t.length → (t.take 500).length < t.length)) := by
  intro t
  rw [parse_analysis_response_full]
  rcases h : parse_analysis_response t with _ | v
  · right
    refine ⟨rfl, ?_, ?_⟩
    · rw [List.length_take]; omega
    · intro h5; rw [List.length_take]; omega
  · exact Or.inl ⟨v, rfl⟩

/-- C9 witness: the dichotomy at a concrete unparseable input. -/
theorem extractor_total_bounded_diagnostic_witness :
    (∃ v, parse_analysis_response_full (cs "no structured data here") = ExtractionResult.plan v)
    ∨ (parse_analysis_response_full (cs "no structured data here") =
        ExtractionResult.failed ((cs "no structured data here").take 500)
       ∧ ((cs "no structured data here").take 500).length ≤ 500
       ∧ (500 < (cs "no structured data here").length →
           ((cs "no structured data here").take 500).length < (cs "no structured data here").length)) :=
  extractor_total_bounded_diagnostic (cs "no structured data here")

/-- C10: strategy 2 only ever attempts the first `json`-tagged block — when
the interior delimited by the first opener and the first subsequent closer
does not parse, strategy 2 fails outright — and the cascade then proceeds to
the brace-spanning strategy 3.  On the concrete two-block text whose first
block is invalid, strategy 2 returns nothing even though the second block's
interior `{"b":2}` is valid JSON, and strategy 3 is handed the substring
from the first `{` to the last `}`, which spans both blocks. -/
theorem tagged_fence_first_block_only :
    (∀ (t : List Char) (i j : Nat),
      firstOccur (cs "```json") t = some i →
      firstOccur (cs "```") (t.drop (i + 7)) = some j →
      jsonParse (trimChars ((t.drop (i + 7)).take j)) = none →
      strat2 t = none)
    ∧ (∀ (t : List Char) (v : JVal), strat1 t = none → strat2 t = none →
        strat3 t = some v → parse_analysis_response t = some v)
    ∧ strat2 twoBlockText = none
    ∧ jsonParse (cs "\x7b\"b\":2\x7d") = some (JVal.jobj [(cs "b", JVal.jnum (cs "2"))])
    ∧ (twoBlockText.drop 8).take 25 = cs "\x7boops\n```\n```json\n\x7b\"b\":2\x7d"
    ∧ strat3 twoBlockText = jsonParse ((twoBlockText.drop 8).take 25) := by
  refine ⟨?_, ?_, by rfl, by rfl, by rfl, by rfl⟩
  · intro t i j h1 h2 h3
    rw [strat2, h1]
    dsimp only
    rw [h2]
    dsimp only
    rw [h3]
  · intro t v h1 h2 h3
    rw [parse_analysis_response, h1, h2, h3]

/-- C10 witness: the universal part applied to the two-block text. -/
theorem tagged_fence_first_block_only_witness :
    firstOccur (cs "```json") twoBlockText = some 0
    ∧ firstOccur (cs "```") (twoBlockText.drop 7) = some 7
    ∧ jsonParse (trimChars ((twoBlockText.drop 7).take 7)) = none
    ∧ strat2 twoBlockText = none :=
  ⟨by rfl, by rfl, by rfl,
   tagged_fence_first_block_only.1 twoBlockText 0 7 (by rfl) (by rfl) (by rfl)⟩

/-! ## Lemmas for the parser state machine (C4) -/

theorem trimChars_eq_self (l : List Char) (h : ∀ c ∈ l, isWsPy c = false) :
    trimChars l = l := by
  have h1 : ∀ m : List Char, (∀ c ∈ m, isWsPy c = false) → m.dropWhile isWsPy = m := by
    intro m hm
    cases m with
    | nil => rfl
    | cons a r => simp [List.dropWhile_cons, hm a (by simp)]
  rw [trimChars, h1 l h, h1 l.reverse (by intro c hc; exact h c (List.mem_reverse.mp hc)),
    List.reverse_reverse]

theorem delimGroup_marker (p : List Char) (hws : ∀ c ∈ p, isWsPy c = false) :
    delimGroup (p ++ cs " ---") = p := by
  induction p with
  | nil => rfl
  | cons a r ih =>
    have ha : isWsPy a = false := hws a (by simp)
    have hfalse : tailOk (a :: (r ++ cs " ---")) = false := by
      have h1 : (a :: (r ++ cs " ---")).all isWsPy = false := by simp [ha]
      have h2 : (a :: (r ++ cs " ---")).dropWhile isWsPy = a :: (r ++ cs " ---") := by
        simp [List.dropWhile_cons, ha]
      rw [tailOk, h1, h2, Bool.false_or, beq_eq_false_iff_ne]
      intro hEq
      have hlen := congrArg List.length hEq
      have l4 : (cs " ---").length = 4 := rfl
      have l3 : (cs "---").length = 3 := rfl
      simp only [List.length_cons, List.length_append, l4, l3] at hlen
      omega
    rw [List.cons_append, delimGroup, hfalse]
    simp only [Bool.false_eq_true, if_false]
    rw [ih (fun c hc => hws c (by simp [hc]))]

theorem extractDelimPath_marker (p : List Char) (hne : p ≠ [])
    (hws : ∀ c ∈ p, isWsPy c = false) :
    extractDelimPath (markerLine p) = some p := by
  have hcat : cs "--- File:" ++ (cs " " ++ (p ++ cs " ---")) = markerLine p := by
    rw [markerLine]
    have : cs "--- File:" ++ cs " " = cs "--- File: " := by rfl
    rw [← List.append_assoc, this, List.append_assoc]
  have hpre : (cs "--- File:").isPrefixOf (markerLine p) = true :=
    List.isPrefixOf_iff_prefix.mpr ⟨cs " " ++ (p ++ cs " ---"), hcat⟩
  rw [extractDelimPath, if_pos hpre]
  have hdrop : (markerLine p).drop 9 = cs " " ++ (p ++ cs " ---") := by
    rw [← hcat]
    have h9 : (cs "--- File:").length = 9 := rfl
    rw [← h9, List.drop_left]
  rw [hdrop]
  rcases p with _ | ⟨a, r⟩
  · cases hne rfl
  · have ha : isWsPy a = false := hws a (by simp)
    have hsp : isWsPy ' ' = true := rfl
    have : (cs " " ++ ((a :: r) ++ cs " ---")).dropWhile isWsPy = (a :: r) ++ cs " ---" := by
      show ((' ' :: ((a :: r) ++ cs " ---")) : List Char).dropWhile isWsPy = (a :: r) ++ cs " ---"
      rw [List.dropWhile_cons, if_pos hsp, List.cons_append, List.dropWhile_cons]
      simp [ha]
    rw [this, delimGroup_marker (a :: r) hws, trimChars_eq_self (a :: r) hws]

theorem extractDelimPath_none (l : List Char)
    (h : (cs "--- File:").isPrefixOf l = false) : extractDelimPath l = none := by
  rw [extractDelimPath, if_neg]
  simp [h]

theorem splitOnNl_no_nl (l : List Char) (h : '\n' ∉ l) : splitOnNl l = [l] := by
  induction l with
  | nil => rfl
  | cons c r ih =>
    have hc : c ≠ '\n' := fun hEq => h (hEq ▸ List.mem_cons_self c r)
    rw [splitOnNl, if_neg hc, ih (fun hm => h (List.mem_cons_of_mem c hm))]

theorem splitOnNl_append_nl (l t : List Char) (h : '\n' ∉ l) :
    splitOnNl (l ++ '\n' :: t) = l :: splitOnNl t := by
  induction l with
  | nil => rfl
  | cons c r ih =>
    have hc : c ≠ '\n' := fun hEq => h (hEq ▸ List.mem_cons_self c r)
    rw [List.cons_append, splitOnNl, if_neg hc,
      ih (fun hm => h (List.mem_cons_of_mem c hm))]

theorem splitOnNl_joinNl : ∀ ls : List (List Char), ls ≠ [] →
    (∀ l ∈ ls, '\n' ∉ l) → splitOnNl (joinNl ls) = ls := by
  intro ls
  induction ls with
  | nil => intro h; cases h rfl
  | cons l rest ih =>
    intro _ hnl
    cases rest with
    | nil => exact splitOnNl_no_nl l (hnl l (by simp))
    | cons l2 rest2 =>
      rw [joinNl, splitOnNl_append_nl l _ (hnl l (by simp)),
        ih (List.cons_ne_nil l2 rest2) (fun m hm => hnl m (List.mem_cons_of_mem l hm))]
      exact List.cons_ne_nil l2 rest2

theorem runLines_no_marker : ∀ (ls : List (List Char)) (m : List (List Char × List Char))
    (cont : List (List Char)), (∀ l ∈ ls, extractDelimPath l = none) →
    runLines ls m none cont = m := by
  intro ls
  induction ls with
  | nil => intro m cont _; rfl
  | cons l rest ih =>
    intro m cont h
    rw [runLines, h l (by simp)]
    exact ih m cont (fun x hx => h x (List.mem_cons_of_mem l hx))

theorem runLines_body : ∀ (bodyLines ls : List (List Char))
    (m : List (List Char × List Char)) (q : List Char) (cont : List (List Char)),
    (∀ l ∈ bodyLines, (cs "--- File:").isPrefixOf l = false) →
    runLines (bodyLines ++ ls) m (some q) cont = runLines ls m (some q) (cont ++ bodyLines) := by
  intro bodyLines
  induction bodyLines with
  | nil => intro ls m q cont _; simp
  | cons l rest ih =>
    intro ls m q cont h
    rw [List.cons_append, runLines, extractDelimPath_none l (h l (by simp))]
    rw [ih ls m q (cont ++ [l]) (fun x hx => h x (List.mem_cons_of_mem l hx))]
    simp

theorem normalizeSep_eq_self (p : List Char) (h : bslash ∉ p) : normalizeSep p = p := by
  induction p with
  | nil => rfl
  | cons a r ih =>
    have ha : ¬ a = bslash := fun hEq => h (by rw [hEq]; exact List.mem_cons_self bslash r)
    have hr := ih (fun hm => h (List.mem_cons_of_mem a hm))
    rw [normalizeSep] at hr ⊢
    rw [List.map_cons, if_neg ha, hr]

theorem dictInsert_notmem (m : List (List Char × List Char)) (k v : List Char)
    (h : k ∉ m.map Prod.fst) : dictInsert m k v = m ++ [(k, v)] := by
  rw [dictInsert, if_neg]
  intro hany
  rcases List.any_eq_true.mp hany with ⟨e, he, hek⟩
  exact h (List.mem_map.mpr ⟨e, he, beq_iff_eq.mp hek⟩)

theorem listFlush_append : ∀ (fs : List (List Char × List (List Char)))
    (m : List (List Char × List Char)),
    (∀ pb ∈ fs, bslash ∉ pb.1) →
    (fs.map Prod.fst).Nodup →
    (∀ pb ∈ fs, pb.1 ∉ m.map Prod.fst) →
    fs.foldl (fun acc pb => flushInto acc pb.1 pb.2) m =
      m ++ fs.map (fun pb => (pb.1, processBody pb.1 pb.2)) := by
  intro fs
  induction fs with
  | nil => intro m _ _ _; simp
  | cons pb fs' ih =>
    intro m hbs hnd hdisj
    rw [List.map_cons, List.nodup_cons] at hnd
    have hflush : flushInto m pb.1 pb.2 = m ++ [(pb.1, processBody pb.1 pb.2)] := by
      rw [flushInto, normalizeSep_eq_self pb.1 (hbs pb (by simp)),
        dictInsert_notmem m pb.1 _ (hdisj pb (by simp))]
      rfl
    have hdisj2 : ∀ qb ∈ fs', qb.1 ∉ (m ++ [(pb.1, processBody pb.1 pb.2)]).map Prod.fst := by
      intro qb hq hmem
      rw [List.map_append] at hmem
      rcases List.mem_append.mp hmem with hin | hin
      · exact hdisj qb (List.mem_cons_of_mem pb hq) hin
      · simp only [List.map_cons, List.map_nil, List.mem_singleton] at hin
        apply hnd.1
        rw [← hin]
        exact List.mem_map.mpr ⟨qb, hq, rfl⟩
    rw [List.foldl_cons, hflush,
      ih _ (fun qb hq => hbs qb (List.mem_cons_of_mem pb hq)) hnd.2 hdisj2]
    simp

theorem runLines_files : ∀ (fs : List (List Char × List (List Char)))
    (m : List (List Char × List Char)) (q : List Char) (cont : List (List Char)),
    goodFiles fs →
    runLines (responseLines fs) m (some q) cont =
      fs.foldl (fun acc pb => flushInto acc pb.1 pb.2) (flushInto m q cont) := by
  intro fs
  induction fs with
  | nil => intro m q cont _; rfl
  | cons pb fs' ih =>
    intro m q cont hg
    have hgp : goodPath pb.1 := (hg pb (by simp)).1
    have hgb : ∀ l ∈ pb.2, goodBodyLine l := (hg pb (by simp)).2
    simp only [responseLines, List.flatMap_cons, List.cons_append]
    rw [runLines, extractDelimPath_marker pb.1 hgp.1 hgp.2.1]
    dsimp only
    have hbody := runLines_body pb.2 (fs'.flatMap (fun qb => markerLine qb.1 :: qb.2))
      (flushInto m q cont) pb.1 [] (fun l hl => (hgb l hl).2)
    rw [hbody, List.nil_append]
    have := ih (flushInto m q cont) pb.1 pb.2 (fun qb hq => hg qb (List.mem_cons_of_mem pb hq))
    rw [responseLines] at this
    rw [this, List.foldl_cons]

theorem responseLines_no_nl (fs : List (List Char × List (List Char)))
    (hg : goodFiles fs) : ∀ l ∈ responseLines fs, '\n' ∉ l := by
  intro l hl
  rw [responseLines, List.mem_flatMap] at hl
  rcases hl with ⟨pb, hpb, hl⟩
  rcases List.mem_cons.mp hl with hl | hl
  · subst hl
    intro hnl
    rw [markerLine] at hnl
    rcases List.mem_append.mp hnl with h1 | h1
    · rcases List.mem_append.mp h1 with h2 | h2
      · exact absurd h2 (by decide)
      · have := (hg pb hpb).1.2.1 '\n' h2
        exact absurd this (by decide)
    · exact absurd h1 (by decide)
  · exact ((hg pb hpb).2 l hl).1

/-! ## Claim about the parser state machine (C4: corrected) -/

/-- C4 counterexample: the claim says each body equals the newline join of
the lines buffered for its path.  For `a.txt` the two buffered lines are
```` ``` ```` and `hello`, whose join is not the stored body — the parser
post-processes each buffer before storing it, dropping fence-marker lines
for non-prose paths. -/
theorem parser_body_not_raw_join :
    parse_generation_response (cs "--- File: a.txt ---\n```\nhello") =
      [(cs "a.txt", cs "hello")]
    ∧ cs "hello" ≠ joinNl [cs "```", cs "hello"] :=
  ⟨by rfl, by decide⟩

/-- C4 (amended): the parser never fails — with no recognizable marker line
it returns the empty set (with a warning) — and an input of N boundary
markers bearing N distinct well-formed paths with arbitrary marker-free
bodies yields exactly N entries in first-seen marker order, each body equal
to the newline join of the lines buffered for that path *after the
per-buffer post-processing* (fence-marker lines dropped unless the path has
a prose extension), the final buffer being flushed at end of input exactly
as on a boundary match. -/
theorem parser_marker_state_machine :
    (∀ t : List Char, (∀ l ∈ splitOnNl (trimChars t), extractDelimPath l = none) →
      parse_generation_response t = [])
    ∧ (∀ fs : List (List Char × List (List Char)), goodFiles fs →
        (fs.map Prod.fst).Nodup →
        trimChars (buildResponse fs) = buildResponse fs →
        parse_generation_response (buildResponse fs) =
          fs.map (fun pb => (pb.1, processBody pb.1 pb.2))) := by
  constructor
  · intro t h
    rw [parse_generation_response]
    exact runLines_no_marker _ [] [] h
  · intro fs hg hnd htrim
    rcases fs with _ | ⟨pb, fs'⟩
    · rfl
    · have hgp : goodPath pb.1 := (hg pb (by simp)).1
      have hgb : ∀ l ∈ pb.2, goodBodyLine l := (hg pb (by simp)).2
      have hg' : goodFiles fs' := fun qb hq => hg qb (List.mem_cons_of_mem pb hq)
      rw [List.map_cons, List.nodup_cons] at hnd
      have hne : responseLines (pb :: fs') ≠ [] := by
        simp [responseLines, List.flatMap_cons]
      rw [parse_generation_response, htrim, buildResponse,
        splitOnNl_joinNl (responseLines (pb :: fs')) hne (responseLines_no_nl _ hg)]
      simp only [responseLines, List.flatMap_cons, List.cons_append]
      rw [runLines, extractDelimPath_marker pb.1 hgp.1 hgp.2.1]
      dsimp only
      rw [runLines_body pb.2 _ [] pb.1 [] (fun l hl => (hgb l hl).2), List.nil_append]
      have hrf := runLines_files fs' [] pb.1 pb.2 hg'
      rw [responseLines] at hrf
      rw [hrf]
      have hflush0 : flushInto [] pb.1 pb.2 = [(pb.1, processBody pb.1 pb.2)] := by
        rw [flushInto, normalizeSep_eq_self pb.1 hgp.2.2]
        rfl
      rw [hflush0]
      have hdisj : ∀ qb ∈ fs', qb.1 ∉ ([(pb.1, processBody pb.1 pb.2)]).map Prod.fst := by
        intro qb hq hmem
        simp only [List.map_cons, List.map_nil, List.mem_singleton] at hmem
        apply hnd.1
        rw [← hmem]
        exact List.mem_map.mpr ⟨qb, hq, rfl⟩
      rw [listFlush_append fs' [(pb.1, processBody pb.1 pb.2)]
        (fun qb hq => (hg' qb hq).1.2.2) hnd.2 hdisj]
      simp

/-- C4 witness: the no-marker clause on plain prose, and the N-entry clause
on a concrete two-file set whose first buffer contains a fence line. -/
theorem parser_marker_state_machine_witness :
    parse_generation_response (cs "just words\nno markers") = []
    ∧ parse_generation_response (buildResponse exC4) =
        exC4.map (fun pb => (pb.1, processBody pb.1 pb.2)) :=
  ⟨parser_marker_state_machine.1 (cs "just words\nno markers") (by decide),
   parser_marker_state_machine.2 exC4
     (by unfold goodFiles goodPath goodBodyLine; decide) (by decide) (by rfl)⟩

/-! ## Lemmas for the fence-wrapping equivalence (C8) -/

theorem trimChars_of_ends (a b : Char) (m : List Char)
    (ha : isWsPy a = false) (hb : isWsPy b = false) :
    trimChars (a :: (m ++ [b])) = a :: (m ++ [b]) := by
  have h1 : (a :: (m ++ [b])).dropWhile isWsPy = a :: (m ++ [b]) := by
    simp [List.dropWhile_cons, ha]
  have hrev : (a :: (m ++ [b])).reverse = b :: (m.reverse ++ [a]) := by
    simp
  rw [trimChars, h1, hrev, List.dropWhile_cons, if_neg (by simp [hb]), ← hrev,
    List.reverse_reverse]

theorem trimChars_nl_nl (a b : Char) (m : List Char)
    (ha : isWsPy a = false) (hb : isWsPy b = false) :
    trimChars ('\n' :: ((a :: (m ++ [b])) ++ ['\n'])) = a :: (m ++ [b]) := by
  have h1 : ('\n' :: ((a :: (m ++ [b])) ++ ['\n'])).dropWhile isWsPy =
      (a :: (m ++ [b])) ++ ['\n'] := by
    rw [List.dropWhile_cons, if_pos (by decide), List.cons_append, List.dropWhile_cons,
      if_neg (by simp [ha])]
  have hrev : ((a :: (m ++ [b])) ++ ['\n']).reverse = '\n' :: (b :: (m.reverse ++ [a])) := by
    simp
  rw [trimChars, h1, hrev, List.dropWhile_cons, if_pos (by decide), List.dropWhile_cons,
    if_neg (by simp [hb])]
  simp

theorem isPrefixOf_head_ne (a b : Char) (pa pb : List Char) (h : ¬ a = b) :
    (a :: pa).isPrefixOf (b :: pb) = false := by
  have hab : (a == b) = false := beq_eq_false_iff_ne.mpr h
  simp [List.isPrefixOf, hab]

theorem parseF_value_tick (fuel : Nat) (r : List Char) :
    parseF fuel PMode.value (tick :: r) = none := by
  cases fuel with
  | zero => rfl
  | succ fuel =>
    have hskip : skipJWs (tick :: r) = tick :: r := by
      rw [skipJWs, List.dropWhile_cons, if_neg (by decide)]
    rw [parseF, hskip]
    dsimp only
    rw [if_neg (by decide), if_neg (by decide), if_neg (by decide), if_neg (by decide),
      if_neg (by decide), if_neg (by decide)]
    have hN : (cs "NaN").isPrefixOf (tick :: r) = false := by
      show (('N' : Char) :: cs "aN").isPrefixOf (tick :: r) = false
      exact isPrefixOf_head_ne 'N' tick _ _ (by decide)
    have hI : (cs "Infinity").isPrefixOf (tick :: r) = false := by
      show (('I' : Char) :: cs "nfinity").isPrefixOf (tick :: r) = false
      exact isPrefixOf_head_ne 'I' tick _ _ (by decide)
    have hmI : (cs "-Infinity").isPrefixOf (tick :: r) = false := by
      show (('-' : Char) :: cs "Infinity").isPrefixOf (tick :: r) = false
      exact isPrefixOf_head_ne '-' tick _ _ (by decide)
    rw [hN]
    simp only [Bool.false_eq_true, if_false]
    rw [hI]
    simp only [Bool.false_eq_true, if_false]
    rw [hmI]
    simp only [Bool.false_eq_true, if_false]
    have hlex : lexNumber (tick :: r) = none := by
      rw [lexNumber]
      dsimp only
      rw [if_neg (by decide)]
      dsimp only
      rw [if_pos (by decide)]
    rw [hlex]

theorem jsonParse_tick (r : List Char) : jsonParse (tick :: r) = none := by
  rw [jsonParse, parseF_value_tick]

theorem firstOccur_at_head (pat s : List Char) (h : pat.isPrefixOf s = true) :
    firstOccur pat s = some 0 := by
  cases s with
  | nil => rw [firstOccur, if_pos h]
  | cons a r => rw [firstOccur, if_pos h]

theorem firstOccur_cons_ne (pat : List Char) (a : Char) (s : List Char)
    (h : pat.isPrefixOf (a :: s) = false) :
    firstOccur pat (a :: s) = (firstOccur pat s).map (· + 1) := by
  rw [firstOccur, if_neg (by simp [h])]

theorem firstIdxOf_cons_ne (c a : Char) (l : List Char) (h : ¬ a = c) :
    firstIdxOf c (a :: l) = (firstIdxOf c l).map (· + 1) := by
  rw [firstIdxOf, if_neg h]

theorem firstIdxOf_cons_eq (c : Char) (l : List Char) :
    firstIdxOf c (c :: l) = some 0 := by
  rw [firstIdxOf, if_pos rfl]

theorem taggedWrap_shape (s : List Char) :
    taggedWrap s = tick :: ((cs "``json\n" ++ s ++ cs "\n``") ++ [tick]) := by
  rw [taggedWrap]
  have h1 : cs "\n```" = cs "\n``" ++ [tick] := rfl
  have h2 : ∀ X : List Char, cs "```json\n" ++ X = tick :: (cs "``json\n" ++ X) :=
    fun X => rfl
  rw [h1, List.append_assoc, h2]
  simp [List.append_assoc]

theorem taggedWrap_json_cons (s : List Char) :
    taggedWrap s = cs "```json" ++ ('\n' :: (s ++ cs "\n```")) := by
  rw [taggedWrap]
  have h2 : ∀ X : List Char, cs "```json\n" ++ X = cs "```json" ++ ('\n' :: X) :=
    fun X => rfl
  rw [List.append_assoc, h2]

theorem untaggedWrap_cons (s : List Char) :
    untaggedWrap s = tick :: tick :: tick :: '\n' :: (s ++ cs "\n```") := by
  rw [untaggedWrap]
  have h2 : ∀ X : List Char, cs "```\n" ++ X = tick :: tick :: tick :: '\n' :: X :=
    fun X => rfl
  rw [List.append_assoc, h2]

theorem untaggedWrap_shape (s : List Char) :
    untaggedWrap s = tick :: ((cs "``\n" ++ s ++ cs "\n``") ++ [tick]) := by
  rw [untaggedWrap]
  have h1 : cs "\n```" = cs "\n``" ++ [tick] := rfl
  have h2 : ∀ X : List Char, cs "```\n" ++ X = tick :: (cs "``\n" ++ X) :=
    fun X => rfl
  rw [h1, List.append_assoc, h2]
  simp [List.append_assoc]

theorem firstOccur_ccc (s : List Char) (hns : tick ∉ s) :
    firstOccur (cs "```") (s ++ '\n' :: cs "```") = some (s.length + 1) := by
  induction s with
  | nil => decide
  | cons a r ih =>
    have ha : ¬ (tick = a) := fun h => hns (h ▸ List.mem_cons_self a r)
    have hpre : (cs "```").isPrefixOf (a :: (r ++ '\n' :: cs "```")) = false := by
      show ((tick : Char) :: cs "``").isPrefixOf (a :: (r ++ '\n' :: cs "```")) = false
      exact isPrefixOf_head_ne tick a _ _ ha
    rw [List.cons_append, firstOccur_cons_ne _ _ _ hpre,
      ih (fun hm => hns (List.mem_cons_of_mem a hm))]
    simp [List.length_cons]

theorem firstOccur_json_body_none (s : List Char) (hns : tick ∉ s) :
    firstOccur (cs "```json") (s ++ '\n' :: cs "```") = none := by
  induction s with
  | nil => decide
  | cons a r ih =>
    have ha : ¬ (tick = a) := fun h => hns (h ▸ List.mem_cons_self a r)
    have hpre : (cs "```json").isPrefixOf (a :: (r ++ '\n' :: cs "```")) = false := by
      show ((tick : Char) :: cs "``json").isPrefixOf (a :: (r ++ '\n' :: cs "```")) = false
      exact isPrefixOf_head_ne tick a _ _ ha
    rw [List.cons_append, firstOccur_cons_ne _ _ _ hpre,
      ih (fun hm => hns (List.mem_cons_of_mem a hm))]
    rfl

theorem firstOccur_json_untagged_none (s : List Char) (hns : tick ∉ s) :
    firstOccur (cs "```json") (untaggedWrap s) = none := by
  rw [untaggedWrap_cons]
  have hj : (('j' : Char) == ('\n' : Char)) = false := by decide
  have h0 : (cs "```json").isPrefixOf
      (tick :: tick :: tick :: '\n' :: (s ++ cs "\n```")) = false := by
    show ((tick : Char) :: tick :: tick :: 'j' :: cs "son").isPrefixOf
      (tick :: tick :: tick :: '\n' :: (s ++ cs "\n```")) = false
    simp [List.isPrefixOf, hj]
  have h1 : (cs "```json").isPrefixOf
      (tick :: tick :: '\n' :: (s ++ cs "\n```")) = false := by
    show ((tick : Char) :: tick :: tick :: 'j' :: cs "son").isPrefixOf
      (tick :: tick :: '\n' :: (s ++ cs "\n```")) = false
    have hx : ((tick : Char) == ('\n' : Char)) = false := by decide
    simp [List.isPrefixOf, hx]
  have h2 : (cs "```json").isPrefixOf
      (tick :: '\n' :: (s ++ cs "\n```")) = false := by
    show ((tick : Char) :: tick :: tick :: 'j' :: cs "son").isPrefixOf
      (tick :: '\n' :: (s ++ cs "\n```")) = false
    have hx : ((tick : Char) == ('\n' : Char)) = false := by decide
    simp [List.isPrefixOf, hx]
  have h3 : (cs "```json").isPrefixOf ('\n' :: (s ++ cs "\n```")) = false := by
    show ((tick : Char) :: cs "``json").isPrefixOf ('\n' :: (s ++ cs "\n```")) = false
    exact isPrefixOf_head_ne tick '\n' _ _ (by decide)
  have hb : firstOccur (cs "```json") (s ++ cs "\n```") = none := by
    have := firstOccur_json_body_none s hns
    simpa using this
  rw [firstOccur_cons_ne _ _ _ h0, firstOccur_cons_ne _ _ _ h1,
    firstOccur_cons_ne _ _ _ h2, firstOccur_cons_ne _ _ _ h3, hb]
  rfl

theorem strat1_tagged_none (s : List Char) : strat1 (taggedWrap s) = none := by
  rw [strat1, taggedWrap_shape, trimChars_of_ends tick tick _ (by decide) (by decide)]
  exact jsonParse_tick _

theorem strat1_untagged_none (s : List Char) : strat1 (untaggedWrap s) = none := by
  rw [strat1, untaggedWrap_shape, trimChars_of_ends tick tick _ (by decide) (by decide)]
  exact jsonParse_tick _

theorem taggedWrap_drop7 (s : List Char) :
    (taggedWrap s).drop 7 = '\n' :: (s ++ cs "\n```") := by
  rw [taggedWrap_json_cons]
  have h7 : (cs "```json").length = 7 := rfl
  rw [← h7, List.drop_left]

theorem strat2_tagged (s mid : List Char) (v : JVal)
    (hs : s = braceL :: (mid ++ [braceR])) (hns : tick ∉ s)
    (hv : jsonParse s = some v) : strat2 (taggedWrap s) = some v := by
  have hocc0 : firstOccur (cs "```json") (taggedWrap s) = some 0 := by
    apply firstOccur_at_head
    apply List.isPrefixOf_iff_prefix.mpr
    exact ⟨'\n' :: (s ++ cs "\n```"), (taggedWrap_json_cons s).symm⟩
  rw [strat2, hocc0]
  dsimp only
  have hdrop : (taggedWrap s).drop (0 + 7) = '\n' :: (s ++ cs "\n```") := by
    rw [Nat.zero_add, taggedWrap_drop7]
  rw [hdrop]
  have hns2 : tick ∉ '\n' :: s := by
    intro hm
    rcases List.mem_cons.mp hm with h | h
    · exact absurd h (by decide)
    · exact hns h
  have hshape : ('\n' :: s) ++ '\n' :: cs "```" = '\n' :: (s ++ cs "\n```") := by
    rw [List.cons_append]
    rfl
  have hocc : firstOccur (cs "```") ('\n' :: (s ++ cs "\n```")) = some (s.length + 2) := by
    rw [← hshape, firstOccur_ccc ('\n' :: s) hns2]
    simp [List.length_cons]
  rw [hocc]
  dsimp only
  have htake : ('\n' :: (s ++ cs "\n```")).take (s.length + 2) = '\n' :: (s ++ ['\n']) := by
    have h21 : s.length + 2 = (s.length + 1) + 1 := rfl
    rw [h21, List.take_succ_cons]
    have h1 : (s ++ cs "\n```").take (s.length + 1) = s ++ (cs "\n```").take 1 := by
      rw [List.take_append]
    rw [h1]
    rfl
  rw [htake, hs, trimChars_nl_nl braceL braceR mid (by decide) (by decide), ← hs, hv]

theorem strat2_untagged_none (s : List Char) (hns : tick ∉ s) :
    strat2 (untaggedWrap s) = none := by
  rw [strat2, firstOccur_json_untagged_none s hns]

theorem untaggedWrap_length (s : List Char) : (untaggedWrap s).length = s.length + 8 := by
  rw [untaggedWrap]
  have h4 : (cs "```\n").length = 4 := rfl
  have h4b : (cs "\n```").length = 4 := rfl
  simp only [List.length_append, h4, h4b]
  omega

theorem strat3_untagged (s mid : List Char) (v : JVal)
    (hs : s = braceL :: (mid ++ [braceR])) (hv : jsonParse s = some v) :
    strat3 (untaggedWrap s) = some v := by
  have hfi : firstIdxOf braceL (untaggedWrap s) = some 4 := by
    rw [untaggedWrap_cons, hs, firstIdxOf_cons_ne _ _ _ (by decide),
      firstIdxOf_cons_ne _ _ _ (by decide), firstIdxOf_cons_ne _ _ _ (by decide),
      firstIdxOf_cons_ne _ _ _ (by decide), List.cons_append, firstIdxOf_cons_eq]
    rfl
  have hrev : (untaggedWrap s).reverse =
      tick :: tick :: tick :: '\n' :: (braceR :: ((mid.reverse ++ [braceL]) ++ cs "\n```")) := by
    rw [untaggedWrap_cons, hs]
    have hr4 : (cs "\n```").reverse = [tick, tick, tick, '\n'] := by decide
    have hc4 : cs "\n```" = ['\n', tick, tick, tick] := by decide
    simp [List.reverse_append, hr4, hc4]
  have hfi4 : firstIdxOf braceR ((untaggedWrap s).reverse) = some 4 := by
    rw [hrev, firstIdxOf_cons_ne _ _ _ (by decide), firstIdxOf_cons_ne _ _ _ (by decide),
      firstIdxOf_cons_ne _ _ _ (by decide), firstIdxOf_cons_ne _ _ _ (by decide),
      firstIdxOf_cons_eq]
    rfl
  have hli : lastIdxOf braceR (untaggedWrap s) = some (s.length + 3) := by
    have h835 : s.length + 8 - 1 - 4 = s.length + 3 := by omega
    rw [lastIdxOf, hfi4, Option.map_some', untaggedWrap_length, h835]
  have hlen2 : 2 ≤ s.length := by
    rw [hs]
    simp [List.length_cons, List.length_append]
  have hlt : 4 < s.length + 3 := by omega
  rw [strat3, hfi, hli]
  dsimp only
  rw [if_pos hlt]
  have hdrop : (untaggedWrap s).drop 4 = s ++ cs "\n```" := by
    rw [untaggedWrap_cons]
    rfl
  have harith : s.length + 3 - 4 + 1 = s.length := by omega
  have htk : (s ++ cs "\n```").take s.length = s := by
    have h0 : s.length = s.length + 0 := rfl
    rw [h0, List.take_append]
    simp
  rw [hdrop, harith, htk, hv]

theorem strat1_bare (s mid : List Char) (v : JVal)
    (hs : s = braceL :: (mid ++ [braceR])) (hv : jsonParse s = some v) :
    strat1 s = some v := by
  rw [strat1, hs, trimChars_of_ends braceL braceR mid (by decide) (by decide), ← hs, hv]

/-! ## Claim about fence-wrapping equivalence (C8: corrected) -/

/-- C8 counterexample: the serialized JSON string `"{}"` parses bare (via
strategy 1) to the two-character string value, but wrapped in an untagged
fence it parses (via the brace-spanning strategy 3) to the empty object — so
wrapping a syntactically valid value can change the Extractor's result. -/
theorem fence_wrapping_changes_result :
    parse_analysis_response (cs "\"\x7b\x7d\"") = some (JVal.jstr (cs "\x7b\x7d"))
    ∧ parse_analysis_response (untaggedWrap (cs "\"\x7b\x7d\"")) = some (JVal.jobj [])
    ∧ JVal.jstr (cs "\x7b\x7d") ≠ JVal.jobj [] :=
  ⟨by rfl, by rfl, fun h => JVal.noConfusion h⟩

/-- C8 (amended): for a syntactically valid serialized value that is a
top-level object (begins with `{`, ends with `}`) and contains no backtick
character, the Extractor returns the identical parsed result whether the
text is given bare, wrapped in a `json`-tagged fence, or wrapped in an
untagged fence.  (For other serialized forms the wrappers can change the
result, per the counterexample.) -/
theorem extractor_fence_wrapping_equivalence :
    ∀ (s mid : List Char) (v : JVal),
      s = braceL :: (mid ++ [braceR]) → tick ∉ s → jsonParse s = some v →
      parse_analysis_response s = some v
      ∧ parse_analysis_response (taggedWrap s) = some v
      ∧ parse_analysis_response (untaggedWrap s) = some v := by
  intro s mid v hs hns hv
  refine ⟨?_, ?_, ?_⟩
  · rw [parse_analysis_response, strat1_bare s mid v hs hv]
  · rw [parse_analysis_response, strat1_tagged_none s, strat2_tagged s mid v hs hns hv]
  · rw [parse_analysis_response, strat1_untagged_none s, strat2_untagged_none s hns,
      strat3_untagged s mid v hs hv]

/-- C8 witness: the three wrappings of `{"a":1}` all parse to the object
`{a: 1}`. -/
theorem extractor_fence_wrapping_equivalence_witness :
    parse_analysis_response (cs "\x7b\"a\":1\x7d") =
      some (JVal.jobj [(cs "a", JVal.jnum (cs "1"))])
    ∧ parse_analysis_response (taggedWrap (cs "\x7b\"a\":1\x7d")) =
      some (JVal.jobj [(cs "a", JVal.jnum (cs "1"))])
    ∧ parse_analysis_response (untaggedWrap (cs "\x7b\"a\":1\x7d")) =
      some (JVal.jobj [(cs "a", JVal.jnum (cs "1"))]) :=
  extractor_fence_wrapping_equivalence (cs "\x7b\"a\":1\x7d") (cs "\"a\":1")
    (JVal.jobj [(cs "a", JVal.jnum (cs "1"))]) (by rfl) (by decide) (by rfl)

/-! ## Concrete evaluations

Kernel-checked evaluations of the embedded functions on concrete inputs,
including the spec's concrete two-file parsing scenario. -/

example : jsonParse (cs "\x7b\"a\":1\x7d") = some (JVal.jobj [(cs "a", JVal.jnum (cs "1"))]) := by rfl
example : jsonParse (cs " [1, true, null, \"x\"] ") =
    some (JVal.jarr [JVal.jnum (cs "1"), JVal.jbool true, JVal.jnull, JVal.jstr (cs "x")]) := by rfl
example : jsonParse (cs "\x7boops") = none := by rfl
example : jsonParse (cs "") = none := by rfl
example : jsonParse (cs "01") = none := by rfl
example : jsonParse (cs "\"\x7b\x7d\"") = some (JVal.jstr (cs "\x7b\x7d")) := by rfl
example : parse_analysis_response (cs "Here is the plan:\n```json\n\x7b\"a\":1\x7d\n```\nThanks") =
    some (JVal.jobj [(cs "a", JVal.jnum (cs "1"))]) := by rfl
example : parse_analysis_response (cs "```json\n\x7b\"a\":1\x7d\n```") =
    some (JVal.jobj [(cs "a", JVal.jnum (cs "1"))]) := by rfl
example : parse_analysis_response (cs "```\n\x7b\"a\":1\x7d\n```") =
    some (JVal.jobj [(cs "a", JVal.jnum (cs "1"))]) := by rfl
example : parse_analysis_response (cs "no structured data here") = none := by rfl
example : strat4 (cs "```\n5\n```") = some (JVal.jnum (cs "5")) := by rfl
example : parse_analysis_response (cs "\"\x7b\x7d\"") = some (JVal.jstr (cs "\x7b\x7d")) := by rfl
example : parse_analysis_response (cs "```\n\"\x7b\x7d\"\n```") = some (JVal.jobj []) := by rfl
example : extractDelimPath (cs "--- File: pages/LoginPage.robot ---") = some (cs "pages/LoginPage.robot") := by rfl
example : extractDelimPath (cs "--- File: pages/LoginPage.robot") = some (cs "pages/LoginPage.robot") := by rfl
example : extractDelimPath (cs "Suite Setup  Open Browser") = none := by rfl
example : extractDelimPathV (cs "--- File: a.robot (NEW)") = some (cs "a.robot") := by rfl
example : extractDelimPathV (cs "--- File: a.robot (NEW) ---") = some (cs "a.robot (NEW)") := by rfl
example : isFenceLine (cs "```") = true := by rfl
example : isFenceLine (cs "```robotframework") = true := by rfl
example : isFenceLine (cs "x```") = false := by rfl
example : isFenceLine (cs "``` python") = false := by rfl
example : isFenceLine (cs "") = false := by rfl
example :
    parse_generation_response
      (cs "--- File: pages/LoginPage.robot ---\n```\nLOGIN = id=login\n```\n--- File: tests/LoginTests.robot ---\nSuite Setup  Open Browser") =
    [(cs "pages/LoginPage.robot", cs "LOGIN = id=login"),
     (cs "tests/LoginTests.robot", cs "Suite Setup  Open Browser")] := by rfl
example : normpath (cs "a/../../b") = cs "../b" := by rfl
example : normpath (cs "../secret") = cs "../secret" := by rfl
example : normpath (cs "/etc/passwd") = cs "/etc/passwd" := by rfl
example : normpath (cs "a/b/c.txt") = cs "a/b/c.txt" := by rfl
example : normpath (cs "a//.//b/c/..") = cs "a/b" := by rfl
example : entryOutcome (cs "/out") (cs "/cwd") honestFs (cs "a/b/c.txt") = Sum.inr (cs "/out/a/b/c.txt") := by rfl
example : entryOutcome (cs "/out") (cs "/cwd") honestFs (cs "../secret") = Sum.inl SkipReason.unsafePath := by rfl
example : entryOutcome (cs "/out") (cs "/cwd") honestFs (cs "/etc/passwd") = Sum.inl SkipReason.absolutePath := by rfl
example : entryOutcome (cs "/out") (cs "/cwd") honestFs (cs "a/../../b") = Sum.inl SkipReason.unsafePath := by rfl
example : entryOutcome (cs "/out") (cs "/cwd") honestFs (cs "  ") = Sum.inl SkipReason.emptyPath := by rfl
example : entryOutcome (cs "/out") (cs "/cwd") honestFs (cs "ln/passwd") = Sum.inr (cs "/out/ln/passwd") := by rfl
example : resolveLinks [(cs "/out/ln", cs "/etc")] (cs "/out/ln/passwd") = cs "/etc/passwd" := by rfl
example : dirname (cs "/out/a/b/c.txt") = cs "/out/a/b" := by rfl
